import Mathlib

/-!
Verification of the direct bulk transaction loader of `gerrydb-etl`
(`src/gerrydb_etl/db.py`, class `DirectTransactionContext`).

The Python code is shallowly embedded below:

* Python scalar cell values become the inductive type `PyValue`; Python's
  `isinstance` checks are embedded as Boolean predicates (in Python, `bool`
  is a subclass of `int`, so `isinstance (True, int)` holds, while
  `isinstance (True, float)` does not).  Python floats appear here only as
  inert payloads (no arithmetic is performed on them by the source), so
  they are carried as rationals.
* The mutable database session becomes explicit state passing on a list of
  `ColumnValue` rows; an insert appends rows, an update maps over the list.
* Exceptions become `Except PyErr`; Python's dict `KeyError` and the
  unbound-local error that `load_column_values` can hit are explicit
  constructors.
* `DirectTransactionContext.__exit__` becomes `exitCtx`, which returns the
  ordered trace of session operations it performs together with a flag
  saying whether a commit-failure exception propagates to the caller.
-/

/-- Column types of `gerrydb_meta.enums.ColumnType` relevant to
`load_column_values` (the structured type is never coerced). -/
inductive ColumnType where
  | BOOL
  | INT
  | FLOAT
  | STR
deriving DecidableEq, Repr

/-- A Python scalar cell value. -/
inductive PyValue where
  | bool (b : Bool)
  | int (n : Int)
  | float (q : ℚ)
  | str (s : String)
deriving DecidableEq, Repr

/-- Python `isinstance(v, int)`: `bool` is a subclass of `int`. -/
def PyValue.isInstInt : PyValue → Bool
  | .bool _ => true
  | .int _ => true
  | _ => false

/-- Python `isinstance(v, float)` (a `bool` or `int` is not a `float`). -/
def PyValue.isInstFloat : PyValue → Bool
  | .float _ => true
  | _ => false

/-- Python `isinstance(v, bool)`. -/
def PyValue.isInstBool : PyValue → Bool
  | .bool _ => true
  | _ => false

/-- Python `isinstance(v, str)`. -/
def PyValue.isInstStr : PyValue → Bool
  | .str _ => true
  | _ => false

/-- Python `float(v)` on the int-like values it is applied to in
`load_column_values` (only reached when `isinstance(v, int)` holds). -/
def PyValue.toFloat : PyValue → PyValue
  | .bool b => .float (if b then 1 else 0)
  | .int n => .float n
  | v => v

/-- One step of the validation `if/elif` chain of
`load_column_values` (db.py lines 93-105), for a single cell: returns the
(possibly promoted) value that is put into the row dict together with the
validation-error message appended for this cell, if any.  The row is
appended regardless of whether an error was recorded, exactly as in the
source. -/
def coerceCell (t : ColumnType) (v : PyValue) : PyValue × Option String :=
  if t = ColumnType.FLOAT ∧ v.isInstInt then
    (v.toFloat, none)
  else if t = ColumnType.FLOAT ∧ ¬ v.isInstFloat then
    (v, some "Expected integer or floating-point column value for geography")
  else if t = ColumnType.INT ∧ ¬ v.isInstInt then
    (v, some "Expected integer column value for geography")
  else if t = ColumnType.STR ∧ ¬ v.isInstStr then
    (v, some "Expected string column value for geography")
  else if t = ColumnType.BOOL ∧ v.isInstBool then
    (v, some "Expected boolean column value for geography")
  else
    (v, none)

/-- `gerrydb_meta.models.DataColumn`, restricted to the fields
`load_column_values` reads. -/
structure DataColumn where
  colId : Nat
  type : ColumnType
deriving DecidableEq, Repr

/-- `gerrydb_meta.models.Geography`, restricted to the fields
`load_column_values` reads. -/
structure Geography where
  geoId : Nat
deriving DecidableEq, Repr

/-- A persisted `gerrydb_meta.models.ColumnValue` row.  `valId` is the
primary key, `validTo = none` encodes SQL `NULL` ("currently valid"). -/
structure ColumnValue where
  valId : Nat
  colId : Nat
  geoId : Nat
  metaId : Nat
  validFrom : Nat
  validTo : Option Nat
  value : PyValue
deriving DecidableEq, Repr

/-- A row dict accumulated in the `rows` list before the bulk insert
(the insert assigns the primary key). -/
structure InsertRow where
  colId : Nat
  geoId : Nat
  metaId : Nat
  validFrom : Nat
  value : PyValue
deriving DecidableEq, Repr

/-- A pandas `DataFrame` as `load_column_values` uses it: one shared index
of geography ids, and a cell value for each (column name, geography id);
`df[c].items()` iterates `index` in order, yielding `(g, cell c g)`. -/
structure DataFrame where
  index : List String
  cell : String → String → PyValue

/-- Exceptions `load_column_values` can raise. -/
inductive PyErr where
  | keyError (key : String)
  | valueError (errors : List String)
  | unboundLocal (name : String)
deriving DecidableEq, Repr

/-- Python dict lookup on an association list (first binding wins). -/
def dictGet {α : Type} : List (String × α) → String → Option α
  | [], _ => none
  | (k, v) :: rest, key => if k = key then some v else dictGet rest key

/-- The geography a dataframe index entry resolves to (total version of the
dict lookup, used only to state lemmas about runs in which every lookup
succeeded). -/
def geoAt (geos : List (String × Geography)) (g : String) : Geography :=
  (dictGet geos g).getD ⟨0⟩

/-! ## `DirectTransactionContext.__exit__` (db.py lines 56-69) -/

/-- An operation performed on the SQLAlchemy session by `__exit__`. -/
inductive SessAction where
  | rollback
  | commit
  | close
deriving DecidableEq, Repr

/-- Python `str.lower()`, modelled by case-folding every character (the
dry-run check only ever compares the result against "true"). -/
def pyLower (s : String) : String :=
  ⟨s.data.map Char.toLower⟩

/-- `os.getenv("GERRYDB_DRY_RUN", "").lower() == "true"`. -/
def envIsTrue (env : Option String) : Bool :=
  pyLower (env.getD "") == "true"

/-- `DirectTransactionContext.__exit__`.  Inputs: whether the scope exited
with an exception (`excType`), the `dry_run` flag, the value of the
`GERRYDB_DRY_RUN` environment variable, and whether `self.db.commit()`
succeeds.  Output: the ordered list of session operations executed, and
whether a commit-failure exception propagates out of `__exit__`
(`raise ex` fires before the final `self.db.close()` line is reached). -/
def exitCtx (excType dryRun : Bool) (env : Option String) (commitOk : Bool) :
    List SessAction × Bool :=
  if excType || dryRun || envIsTrue env then
    ([SessAction.rollback, SessAction.close], false)
  else if commitOk then
    ([SessAction.commit, SessAction.close], false)
  else
    ([SessAction.commit, SessAction.rollback], true)

/-! ## `load_column_values` (db.py lines 71-147) -/

/-- The inner loop `for geo_id, value in values.items()` of
`load_column_values` for one column: looks each geography id up in the
`geos` dict (raising `KeyError` on a miss, as Python does), coerces the
cell, and accumulates the row dicts and this column's validation errors in
iteration order. -/
def processItems (colId : Nat) (t : ColumnType) (metaId nowTs : Nat)
    (geos : List (String × Geography)) (cellOf : String → PyValue) :
    List String → Except PyErr (List InsertRow × List String)
  | [] => .ok ([], [])
  | g :: rest =>
    match dictGet geos g with
    | none => .error (.keyError g)
    | some geo =>
      match processItems colId t metaId nowTs geos cellOf rest with
      | .error e => .error e
      | .ok (rs, errs) =>
        let cv := coerceCell t (cellOf g)
        .ok (⟨colId, geo.geoId, metaId, nowTs, cv.1⟩ :: rs,
             match cv.2 with
             | some m => m :: errs
             | none => errs)

/-- The outer loop `for col_name, col in cols.items()` of
`load_column_values`.  `rows` accumulates across all columns, but
`validation_errors = []` sits inside the loop body in the source, so the
returned error list is the one of the *last* column only, and it is `none`
(unbound) when `cols` is empty. -/
def buildCols (metaId nowTs : Nat) (geos : List (String × Geography))
    (df : DataFrame) :
    List (String × DataColumn) →
      Except PyErr (List InsertRow × Option (List String))
  | [] => .ok ([], none)
  | (colName, col) :: rest =>
    match processItems col.colId col.type metaId nowTs geos (df.cell colName)
        df.index with
    | .error e => .error e
    | .ok (rs, errs) =>
      match buildCols metaId nowTs geos df rest with
      | .error e => .error e
      | .ok (rs', errsLast) => .ok (rs ++ rs', some (errsLast.getD errs))

/-- The stale-value detection loop (db.py lines 123-133): for each column
id in turn, the rows of the session state that are for that column, for one
of the batch geography ids, and currently valid; the query selects only
`(col_id, geo_id)`. -/
def staleQuery (colIds geoIds : List Nat) (db : List ColumnValue) :
    List (Nat × Nat) :=
  (colIds.map fun cid =>
    (db.filter fun cv =>
        decide (cv.geoId ∈ geoIds) && cv.colId == cid && cv.validTo.isNone).map
      fun cv => (cv.colId, cv.geoId)).flatten

/-- The bulk update (db.py lines 140-146): set `valid_to = now` on every
row whose `(col_id, geo_id)` tuple is in `stale_pairs`.  Note there is no
`valid_to IS NULL` condition in the `WHERE` clause of the source. -/
def closeOutStale (nowTs : Nat) (stalePairs : List (Nat × Nat))
    (db : List ColumnValue) : List ColumnValue :=
  db.map fun cv =>
    if (cv.colId, cv.geoId) ∈ stalePairs then { cv with validTo := some nowTs }
    else cv

/-- The bulk insert (db.py line 147): each row dict becomes a persisted
`ColumnValue` with a fresh primary key and `valid_to = NULL`. -/
def insertRows (nextValId : Nat) (rows : List InsertRow) : List ColumnValue :=
  rows.enum.map fun p =>
    ⟨nextValId + p.1, p.2.colId, p.2.geoId, p.2.metaId, p.2.validFrom, none,
      p.2.value⟩

/-- Observable outcome of a successful `load_column_values` call. -/
structure LoadResult where
  db : List ColumnValue
  staleValues : List (Nat × Nat)
  updateIssued : Bool
  updatedRows : Nat
  inserted : List ColumnValue
deriving DecidableEq, Repr

/-- The write phase of `load_column_values` (db.py lines 119-147): run the
stale detection, skip the bulk update when it found nothing, otherwise
close out by `(col_id, geo_id)` pair, then bulk-insert the new rows.
`updatedRows` counts the session rows matched by the update statement. -/
def loadPhase2 (nowTs nextValId : Nat) (colIds geoIds : List Nat)
    (rows : List InsertRow) (db : List ColumnValue) : LoadResult :=
  let stale := staleQuery colIds geoIds db
  let newRows := insertRows nextValId rows
  if stale = [] then
    ⟨db ++ newRows, stale, false, 0, newRows⟩
  else
    ⟨closeOutStale nowTs stale db ++ newRows, stale, true,
      (db.filter fun cv => decide ((cv.colId, cv.geoId) ∈ stale)).length,
      newRows⟩

/-- `DirectTransactionContext.load_column_values` (db.py lines 71-147).
`metaId` is `self.meta.meta_id`, `nowTs` the single timestamp captured at
entry, `nextValId` the next primary key the insert will assign, `db` the
`ColumnValue` rows visible to the session.  Raises `UnboundLocalError`
when `cols` is empty (the `if validation_errors:` test reads a name only
assigned inside the loop), `ValueError` when the *last* column recorded
validation errors, `KeyError` when a dataframe index entry is missing from
`geos`. -/
def loadColumnValues (metaId nowTs nextValId : Nat)
    (cols : List (String × DataColumn)) (geos : List (String × Geography))
    (df : DataFrame) (db : List ColumnValue) : Except PyErr LoadResult :=
  match buildCols metaId nowTs geos df cols with
  | .error e => .error e
  | .ok (_, none) => .error (.unboundLocal "validation_errors")
  | .ok (rows, some errs) =>
    if errs = [] then
      .ok (loadPhase2 nowTs nextValId (cols.map fun c => c.2.colId)
        (geos.map fun g => g.2.geoId) rows db)
    else
      .error (.valueError errs)

/-! ## Derived notions used by the statements -/

/-- All rows of a session state for one (column, geography) pair. -/
def pairRows (db : List ColumnValue) (c g : Nat) : List ColumnValue :=
  db.filter fun cv => cv.colId == c && cv.geoId == g

/-- The currently-valid rows of a session state for one
(column, geography) pair. -/
def currentRows (db : List ColumnValue) (c g : Nat) : List ColumnValue :=
  db.filter fun cv => cv.colId == c && cv.geoId == g && cv.validTo.isNone

/-- The versioning invariant: every (column, geography) pair has at most
one currently-valid row. -/
def AtMostOneCurrent (db : List ColumnValue) : Prop :=
  ∀ c g, (currentRows db c g).length ≤ 1

/-! ## Concrete instances

Closed inputs used by the counterexample and witness theorems below. -/

def c1Cols : List (String × DataColumn) := [("a", ⟨10, ColumnType.INT⟩)]

def c1Geos : List (String × Geography) := [("X", ⟨20⟩)]

def c1Df : DataFrame := ⟨["X"], fun _ _ => PyValue.int 7⟩

/-- A pair (10, 20) holding one already-closed historical row and one
currently-valid row. -/
def c1Db : List ColumnValue :=
  [⟨1, 10, 20, 0, 1, some 5, PyValue.int 3⟩,
   ⟨2, 10, 20, 0, 5, none, PyValue.int 4⟩]

def c1Res : LoadResult :=
  ⟨[⟨1, 10, 20, 0, 1, some 9, PyValue.int 3⟩,
    ⟨2, 10, 20, 0, 5, some 9, PyValue.int 4⟩,
    ⟨100, 10, 20, 0, 9, none, PyValue.int 7⟩],
   [(10, 20)], true, 2,
   [⟨100, 10, 20, 0, 9, none, PyValue.int 7⟩]⟩

def c2Cols : List (String × DataColumn) :=
  [("a", ⟨1, ColumnType.INT⟩), ("b", ⟨2, ColumnType.INT⟩)]

def c2Geos : List (String × Geography) := [("X", ⟨7⟩)]

/-- Column "a" holds a string cell that fails the integer check; the last
column "b" is clean. -/
def c2Df : DataFrame :=
  ⟨["X"], fun c _ => if c = "a" then PyValue.str "bad" else PyValue.int 3⟩

def c2Res : LoadResult :=
  ⟨[⟨100, 1, 7, 0, 5, none, PyValue.str "bad"⟩,
    ⟨101, 2, 7, 0, 5, none, PyValue.int 3⟩],
   [], false, 0,
   [⟨100, 1, 7, 0, 5, none, PyValue.str "bad"⟩,
    ⟨101, 2, 7, 0, 5, none, PyValue.int 3⟩]⟩

def c3Cols : List (String × DataColumn) := [("a", ⟨1, ColumnType.INT⟩)]

def c3Geos : List (String × Geography) := [("X", ⟨7⟩)]

def c3Df : DataFrame := ⟨["X"], fun _ _ => PyValue.int 5⟩

def c3Res : LoadResult :=
  ⟨[⟨100, 1, 7, 0, 5, none, PyValue.int 5⟩], [], false, 0,
   [⟨100, 1, 7, 0, 5, none, PyValue.int 5⟩]⟩

def c8Cols : List (String × DataColumn) := [("a", ⟨1, ColumnType.INT⟩)]

def c8Geos : List (String × Geography) := [("X", ⟨7⟩)]

def c8Df : DataFrame := ⟨["X"], fun _ _ => PyValue.int 5⟩

/-- One unrelated currently-valid row (different column and geography). -/
def c8Db : List ColumnValue := [⟨1, 99, 99, 0, 3, none, PyValue.int 0⟩]

def c8Res : LoadResult :=
  ⟨[⟨1, 99, 99, 0, 3, none, PyValue.int 0⟩,
    ⟨100, 1, 7, 0, 5, none, PyValue.int 5⟩],
   [], false, 0, [⟨100, 1, 7, 0, 5, none, PyValue.int 5⟩]⟩

/-! ## Helper lemmas -/

theorem exitCtx_rollback_cond (e d : Bool) (env : Option String) (ok : Bool) :
    (SessAction.rollback ∈ (exitCtx e d env ok).1 ∧
        SessAction.commit ∉ (exitCtx e d env ok).1) ↔
      (e || d || envIsTrue env) = true := by
  cases e <;> cases d <;> cases he : envIsTrue env <;> cases ok <;>
    simp [exitCtx, he]

theorem exitCtx_commit_path (e d : Bool) (env : Option String) (ok : Bool)
    (h : (e || d || envIsTrue env) = false) :
    SessAction.commit ∈ (exitCtx e d env ok).1 ∧
      (ok = true →
        SessAction.rollback ∉ (exitCtx e d env ok).1 ∧
          (exitCtx e d env ok).2 = false) ∧
      (ok = false →
        SessAction.rollback ∈ (exitCtx e d env ok).1 ∧
          (exitCtx e d env ok).2 = true) := by
  cases ok <;> simp [exitCtx, h]

theorem currentRows_mem {db : List ColumnValue} {c g : Nat}
    {cv : ColumnValue} :
    cv ∈ currentRows db c g ↔
      cv ∈ db ∧ cv.colId = c ∧ cv.geoId = g ∧ cv.validTo = none := by
  simp [currentRows, List.mem_filter, Bool.and_eq_true, beq_iff_eq,
    Option.isNone_iff_eq_none, and_assoc]

theorem currentRows_append (l₁ l₂ : List ColumnValue) (c g : Nat) :
    currentRows (l₁ ++ l₂) c g = currentRows l₁ c g ++ currentRows l₂ c g :=
  List.filter_append l₁ l₂

theorem pairRows_append (l₁ l₂ : List ColumnValue) (c g : Nat) :
    pairRows (l₁ ++ l₂) c g = pairRows l₁ c g ++ pairRows l₂ c g :=
  List.filter_append l₁ l₂

theorem staleQuery_mem {colIds geoIds : List Nat} {db : List ColumnValue}
    {c g : Nat} :
    (c, g) ∈ staleQuery colIds geoIds db ↔
      c ∈ colIds ∧ g ∈ geoIds ∧
        ∃ cv ∈ db, cv.colId = c ∧ cv.geoId = g ∧ cv.validTo = none := by
  constructor
  · intro h
    simp only [staleQuery, List.mem_flatten, List.mem_map] at h
    obtain ⟨l, ⟨cid, hcid, rfl⟩, hmem⟩ := h
    obtain ⟨cv, hcv, heq⟩ := List.mem_map.mp hmem
    rw [List.mem_filter] at hcv
    obtain ⟨hdb, hpred⟩ := hcv
    simp only [Bool.and_eq_true, decide_eq_true_eq, beq_iff_eq,
      Option.isNone_iff_eq_none] at hpred
    obtain ⟨⟨hg, hcol⟩, hvt⟩ := hpred
    simp only [Prod.mk.injEq] at heq
    refine ⟨heq.1 ▸ hcol ▸ hcid, heq.2 ▸ hg, cv, hdb, heq.1, heq.2, hvt⟩
  · rintro ⟨hc, hg, cv, hdb, hcol, hgeo, hvt⟩
    refine List.mem_flatten.mpr ⟨_, List.mem_map_of_mem _ hc, ?_⟩
    refine List.mem_map.mpr ⟨cv, List.mem_filter.mpr ⟨hdb, ?_⟩, ?_⟩
    · simp [hcol, hgeo ▸ hg, hvt]
    · simp [hcol, hgeo]

theorem closeOutStale_nil (nowTs : Nat) (db : List ColumnValue) :
    closeOutStale nowTs [] db = db := by
  simp [closeOutStale]

theorem currentRows_closeOutStale_of_mem (nowTs : Nat) (S : List (Nat × Nat))
    (db : List ColumnValue) {c g : Nat} (h : (c, g) ∈ S) :
    currentRows (closeOutStale nowTs S db) c g = [] := by
  rw [List.eq_nil_iff_forall_not_mem]
  intro cv hcv
  rw [currentRows_mem] at hcv
  obtain ⟨hmem, hc, hg, hvt⟩ := hcv
  simp only [closeOutStale, List.mem_map] at hmem
  obtain ⟨orig, horig, rfl⟩ := hmem
  by_cases hm : (orig.colId, orig.geoId) ∈ S
  · rw [if_pos hm] at hvt
    cases hvt
  · rw [if_neg hm] at hc hg
    exact hm (by rw [hc, hg]; exact h)

theorem filter_closeOutStale_frame (nowTs : Nat) (S : List (Nat × Nat))
    (p : ColumnValue → Bool)
    (hp : ∀ cv : ColumnValue, (cv.colId, cv.geoId) ∈ S →
      p cv = false ∧ p { cv with validTo := some nowTs } = false) :
    ∀ db : List ColumnValue, (closeOutStale nowTs S db).filter p = db.filter p
  | [] => rfl
  | cv :: rest => by
    simp only [closeOutStale, List.map_cons, List.filter_cons]
    have ih := filter_closeOutStale_frame nowTs S p hp rest
    simp only [closeOutStale] at ih
    by_cases hm : (cv.colId, cv.geoId) ∈ S
    · rw [if_pos hm, (hp cv hm).1, (hp cv hm).2]
      simpa using ih
    · rw [if_neg hm]
      cases hpc : p cv <;> simp [hpc, ih]

theorem pair_pred_false {cv : ColumnValue} {c g : Nat}
    (h : ¬(cv.colId = c ∧ cv.geoId = g)) :
    (cv.colId == c && cv.geoId == g) = false := by
  by_cases hcc : cv.colId = c
  · by_cases hgg : cv.geoId = g
    · exact absurd ⟨hcc, hgg⟩ h
    · simp [hgg]
  · simp [hcc]

theorem pairRows_closeOutStale_frame (nowTs : Nat) (S : List (Nat × Nat))
    (db : List ColumnValue) {c g : Nat} (h : (c, g) ∉ S) :
    pairRows (closeOutStale nowTs S db) c g = pairRows db c g := by
  refine filter_closeOutStale_frame nowTs S _ ?_ db
  intro cv hm
  have hne : ¬(cv.colId = c ∧ cv.geoId = g) := by
    rintro ⟨h1, h2⟩
    exact h (by rw [← h1, ← h2]; exact hm)
  exact ⟨pair_pred_false hne, pair_pred_false hne⟩

theorem currentRows_closeOutStale_frame (nowTs : Nat) (S : List (Nat × Nat))
    (db : List ColumnValue) {c g : Nat} (h : (c, g) ∉ S) :
    currentRows (closeOutStale nowTs S db) c g = currentRows db c g := by
  refine filter_closeOutStale_frame nowTs S _ ?_ db
  intro cv hm
  have hne : ¬(cv.colId = c ∧ cv.geoId = g) := by
    rintro ⟨h1, h2⟩
    exact h (by rw [← h1, ← h2]; exact hm)
  constructor <;> rw [pair_pred_false hne] <;> rfl

theorem currentRows_eq_nil_of_not_stale {colIds geoIds : List Nat}
    {db : List ColumnValue} {c g : Nat} (hc : c ∈ colIds) (hg : g ∈ geoIds)
    (h : (c, g) ∉ staleQuery colIds geoIds db) :
    currentRows db c g = [] := by
  rw [List.eq_nil_iff_forall_not_mem]
  intro cv hcv
  rw [currentRows_mem] at hcv
  exact h (staleQuery_mem.mpr
    ⟨hc, hg, cv, hcv.1, hcv.2.1, hcv.2.2.1, hcv.2.2.2⟩)

theorem insertRows_map_pair (nextValId : Nat) (rows : List InsertRow) :
    (insertRows nextValId rows).map (fun cv => (cv.colId, cv.geoId)) =
      rows.map fun row => (row.colId, row.geoId) := by
  rw [insertRows, List.map_map]
  conv_rhs => rw [← List.enum_map_snd rows, List.map_map]
  rfl

theorem insertRows_validTo {nextValId : Nat} {rows : List InsertRow}
    {cv : ColumnValue} (h : cv ∈ insertRows nextValId rows) :
    cv.validTo = none := by
  simp only [insertRows, List.mem_map] at h
  obtain ⟨p, _, rfl⟩ := h
  rfl

theorem insertRows_length (nextValId : Nat) (rows : List InsertRow) :
    (insertRows nextValId rows).length = rows.length := by
  simp [insertRows]

theorem currentRows_insertRows (nextValId : Nat) (rows : List InsertRow)
    (c g : Nat) :
    currentRows (insertRows nextValId rows) c g =
      pairRows (insertRows nextValId rows) c g := by
  unfold currentRows pairRows
  refine List.filter_congr ?_
  intro cv hcv
  have hvt := insertRows_validTo hcv
  simp [hvt]

theorem dictGet_eq_of_nodup {α : Type} {geos : List (String × α)}
    (hnd : (geos.map Prod.fst).Nodup) {k : String} {v : α}
    (h : (k, v) ∈ geos) : dictGet geos k = some v := by
  induction geos with
  | nil => cases h
  | cons p rest ih =>
    obtain ⟨k₀, v₀⟩ := p
    simp only [List.map_cons, List.nodup_cons] at hnd
    rcases List.mem_cons.mp h with heq | hmem
    · cases heq
      simp [dictGet]
    · have hne : k₀ ≠ k := fun hk =>
        hnd.1 (hk ▸ List.mem_map.mpr ⟨(k, v), hmem, rfl⟩)
      simp only [dictGet, if_neg hne]
      exact ih hnd.2 hmem

theorem mapIdx_pairs (geos : List (String × Geography)) (cid : Nat)
    (hnd : (geos.map Prod.fst).Nodup) :
    (geos.map Prod.fst).map (fun g => (cid, (geoAt geos g).geoId)) =
      (geos.map fun kg => kg.2.geoId).map fun gid => (cid, gid) := by
  rw [List.map_map, List.map_map]
  refine List.map_congr_left ?_
  rintro ⟨k, geo⟩ hkg
  have hdg : dictGet geos k = some geo := dictGet_eq_of_nodup hnd hkg
  simp [Function.comp, geoAt, hdg]

theorem processItems_pairs {colId : Nat} {t : ColumnType} {metaId nowTs : Nat}
    {geos : List (String × Geography)} {cellOf : String → PyValue}
    {idx : List String} {rs : List InsertRow} {errs : List String}
    (h : processItems colId t metaId nowTs geos cellOf idx = .ok (rs, errs)) :
    rs.map (fun row => (row.colId, row.geoId)) =
      idx.map fun g => (colId, (geoAt geos g).geoId) := by
  induction idx generalizing rs errs with
  | nil =>
    simp only [processItems] at h
    cases h
    rfl
  | cons g rest ih =>
    simp only [processItems] at h
    cases hdg : dictGet geos g with
    | none => rw [hdg] at h; cases h
    | some geo =>
      rw [hdg] at h
      cases hrec : processItems colId t metaId nowTs geos cellOf rest with
      | error e => rw [hrec] at h; cases h
      | ok p =>
        obtain ⟨rs₀, errs₀⟩ := p
        rw [hrec] at h
        cases h
        simp only [List.map_cons, geoAt, hdg, Option.getD_some]
        exact congrArg _ (ih hrec)

theorem buildCols_pairs {metaId nowTs : Nat} {geos : List (String × Geography)}
    {df : DataFrame} {cols : List (String × DataColumn)}
    {rows : List InsertRow} {e : Option (List String)}
    (h : buildCols metaId nowTs geos df cols = .ok (rows, e)) :
    rows.map (fun row => (row.colId, row.geoId)) =
      (cols.map fun col =>
        df.index.map fun g => (col.2.colId, (geoAt geos g).geoId)).flatten := by
  induction cols generalizing rows e with
  | nil =>
    simp only [buildCols] at h
    cases h
    rfl
  | cons colPair rest ih =>
    obtain ⟨colName, col⟩ := colPair
    simp only [buildCols] at h
    cases hpi : processItems col.colId col.type metaId nowTs geos
        (df.cell colName) df.index with
    | error e₀ => rw [hpi] at h; cases h
    | ok p =>
      obtain ⟨rs₀, errs₀⟩ := p
      rw [hpi] at h
      cases hbc : buildCols metaId nowTs geos df rest with
      | error e₀ => rw [hbc] at h; cases h
      | ok q =>
        obtain ⟨rs₁, e₁⟩ := q
        rw [hbc] at h
        cases h
        simp only [List.map_cons, List.map_append, List.flatten_cons]
        exact congrArg₂ _ (processItems_pairs hpi) (ih hbc)

theorem sum_map_const_nat {α : Type} (l : List α) (k : Nat) :
    (l.map fun _ => k).sum = l.length * k := by
  induction l with
  | nil => simp
  | cons a rest ih => simp [ih, Nat.succ_mul, Nat.add_comm]

theorem countP_beq_of_nodup {l : List Nat} {c : Nat} (hnd : l.Nodup)
    (hc : c ∈ l) : l.countP (fun x => x == c) = 1 := by
  induction l with
  | nil => cases hc
  | cons a rest ih =>
    rw [List.countP_cons]
    obtain ⟨hna, hndr⟩ := List.nodup_cons.mp hnd
    rcases List.mem_cons.mp hc with heq | hmem
    · subst heq
      have hz : rest.countP (fun x => x == c) = 0 := by
        rw [List.countP_eq_zero]
        intro x hx
        simp only [beq_iff_eq]
        exact fun hxc => hna (hxc ▸ hx)
      simp [hz]
    · have hne : a ≠ c := fun hac => hna (hac ▸ hmem)
      simp [hne, ih hndr hmem]

theorem countP_beq_of_not_mem {l : List Nat} {c : Nat} (hc : c ∉ l) :
    l.countP (fun x => x == c) = 0 := by
  rw [List.countP_eq_zero]
  intro x hx
  simp only [beq_iff_eq]
  exact fun hxc => hc (hxc ▸ hx)

theorem countP_pair_flatten (c g : Nat) (inner : List Nat) :
    ∀ cids : List Nat,
      List.countP (fun p => p.1 == c && p.2 == g)
        ((cids.map fun cid => inner.map fun gid => (cid, gid)).flatten) =
      inner.countP (fun gid => gid == g) * cids.countP (fun cid => cid == c)
  | [] => by simp
  | cid :: rest => by
    simp only [List.map_cons, List.flatten_cons, List.countP_append,
      countP_pair_flatten c g inner rest, List.countP_cons]
    have hinner : List.countP (fun p => p.1 == c && p.2 == g)
        (inner.map fun gid => (cid, gid)) =
        if cid = c then inner.countP (fun gid => gid == g) else 0 := by
      rw [List.countP_map]
      by_cases hc : cid = c
      · subst hc
        rw [if_pos rfl]
        refine List.countP_congr ?_
        intro gid _
        simp [Function.comp]
      · rw [if_neg hc]
        rw [List.countP_eq_zero]
        intro gid _
        simp [Function.comp, hc]
    rw [hinner]
    by_cases hc : cid = c
    · subst hc
      simp only [if_pos rfl, beq_self_eq_true, if_true, Nat.mul_one]
      ring
    · have hbf : (cid == c) = false := by simp [hc]
      simp [hc, hbf]

theorem loadPhase2_staleValues (nowTs nextValId : Nat) (colIds geoIds : List Nat)
    (rows : List InsertRow) (db : List ColumnValue) :
    (loadPhase2 nowTs nextValId colIds geoIds rows db).staleValues =
      staleQuery colIds geoIds db := by
  simp only [loadPhase2]
  split <;> rfl

theorem loadPhase2_inserted (nowTs nextValId : Nat) (colIds geoIds : List Nat)
    (rows : List InsertRow) (db : List ColumnValue) :
    (loadPhase2 nowTs nextValId colIds geoIds rows db).inserted =
      insertRows nextValId rows := by
  simp only [loadPhase2]
  split <;> rfl

theorem loadPhase2_db (nowTs nextValId : Nat) (colIds geoIds : List Nat)
    (rows : List InsertRow) (db : List ColumnValue) :
    (loadPhase2 nowTs nextValId colIds geoIds rows db).db =
      closeOutStale nowTs (staleQuery colIds geoIds db) db ++
        insertRows nextValId rows := by
  simp only [loadPhase2]
  split
  · next hnil => rw [hnil, closeOutStale_nil]
  · rfl

theorem loadColumnValues_ok_inv {metaId nowTs nextValId : Nat}
    {cols : List (String × DataColumn)} {geos : List (String × Geography)}
    {df : DataFrame} {db : List ColumnValue} {r : LoadResult}
    (h : loadColumnValues metaId nowTs nextValId cols geos df db = .ok r) :
    ∃ rows, buildCols metaId nowTs geos df cols = .ok (rows, some []) ∧
      r = loadPhase2 nowTs nextValId (cols.map fun col => col.2.colId)
        (geos.map fun kg => kg.2.geoId) rows db := by
  unfold loadColumnValues at h
  split at h
  · cases h
  · cases h
  · next rows errs heq =>
    split at h
    · next he =>
      subst he
      cases h
      exact ⟨rows, heq, rfl⟩
    · cases h

/-! ## Claim theorems -/

/-- C4: on exit of a `DirectTransactionContext` scope, the session is
rolled back (instead of committed) exactly when an error propagated out of
the scope, the `dry_run` flag is set, or the `GERRYDB_DRY_RUN` environment
variable equals "true" case-insensitively; in every other case a commit is
attempted, and when the commit fails the session is rolled back and the
commit failure propagates to the caller. -/
theorem exit_rollback_policy (e d : Bool) (env : Option String) (ok : Bool) :
    ((SessAction.rollback ∈ (exitCtx e d env ok).1 ∧
        SessAction.commit ∉ (exitCtx e d env ok).1) ↔
      (e || d || envIsTrue env) = true) ∧
      ((e || d || envIsTrue env) = false →
        SessAction.commit ∈ (exitCtx e d env ok).1 ∧
          (ok = false →
            SessAction.rollback ∈ (exitCtx e d env ok).1 ∧
              (exitCtx e d env ok).2 = true) ∧
          (ok = true →
            SessAction.rollback ∉ (exitCtx e d env ok).1 ∧
              (exitCtx e d env ok).2 = false)) := by
  refine ⟨exitCtx_rollback_cond e d env ok, fun h => ?_⟩
  obtain ⟨h1, h2, h3⟩ := exitCtx_commit_path e d env ok h
  exact ⟨h1, h3, h2⟩

/-- C4 witness: the policy instantiated at a concrete error exit. -/
theorem exit_rollback_policy_witness :
    ((SessAction.rollback ∈ (exitCtx true false none true).1 ∧
        SessAction.commit ∉ (exitCtx true false none true).1) ↔
      (true || false || envIsTrue none) = true) ∧
      ((true || false || envIsTrue none) = false →
        SessAction.commit ∈ (exitCtx true false none true).1 ∧
          (true = false →
            SessAction.rollback ∈ (exitCtx true false none true).1 ∧
              (exitCtx true false none true).2 = true) ∧
          (true = true →
            SessAction.rollback ∉ (exitCtx true false none true).1 ∧
              (exitCtx true false none true).2 = false)) :=
  exit_rollback_policy true false none true

/-- C5 counterexample: on the failed-commit path (`raise ex` fires before
the final `self.db.close()` line), the session is never closed, so the
claim that every exit path closes the session is false. -/
theorem exit_close_missing_on_commit_failure :
    SessAction.close ∉ (exitCtx false false none false).1 ∧
      (exitCtx false false none false).2 = true := by
  decide

/-- C5 amended: the session is closed on the error-exit, dry-run, and
successful-commit paths, and on exactly those; on the failed-commit path
the re-raised commit exception reaches the caller before `close()` runs. -/
theorem exit_close_policy (e d : Bool) (env : Option String) (ok : Bool) :
    SessAction.close ∈ (exitCtx e d env ok).1 ↔
      ¬((e || d || envIsTrue env) = false ∧ ok = false) := by
  cases e <;> cases d <;> cases he : envIsTrue env <;> cases ok <;>
    simp [exitCtx, he]

/-- C5 amended witness: instantiated at a successful commit. -/
theorem exit_close_policy_witness :
    SessAction.close ∈ (exitCtx false false (some "0") true).1 ↔
      ¬((false || false || envIsTrue (some "0")) = false ∧ true = false) :=
  exit_close_policy false false (some "0") true

/-- C6: for a boolean-typed column the legacy check is inverted — a
validation error is recorded exactly when the cell value *is* a Python
`bool`, every non-boolean value passes, and the value itself is never
altered by the boolean branch. -/
theorem bool_column_check_inverted (v : PyValue) :
    (coerceCell ColumnType.BOOL v).2 =
      (if v.isInstBool then
        some "Expected boolean column value for geography"
      else none) ∧
      (coerceCell ColumnType.BOOL v).1 = v := by
  cases v <;>
    simp [coerceCell, PyValue.isInstBool, PyValue.isInstInt,
      PyValue.isInstFloat, PyValue.isInstStr]

/-- C7: a floating-point column silently promotes an integer cell to the
equal rational value (no error recorded), and records a validation error
for a string cell, leaving it unchanged. -/
theorem float_column_coercion (n : Int) (s : String) :
    coerceCell ColumnType.FLOAT (PyValue.int n) = (PyValue.float (n : ℚ), none) ∧
      coerceCell ColumnType.FLOAT (PyValue.str s) =
        (PyValue.str s,
          some "Expected integer or floating-point column value for geography") := by
  constructor <;>
    simp [coerceCell, PyValue.isInstInt, PyValue.isInstFloat, PyValue.toFloat]

/-- C9: because Python's `bool` is a subclass of `int`, a boolean cell
passes the integer-column check with no error and is stored unchanged, and
a boolean cell fed to a floating-point column is silently promoted by
`float(value)` to `1.0` / `0.0`. -/
theorem bool_cell_int_float_columns (b : Bool) :
    coerceCell ColumnType.INT (PyValue.bool b) = (PyValue.bool b, none) ∧
      coerceCell ColumnType.FLOAT (PyValue.bool b) =
        (PyValue.float (if b then 1 else 0), none) := by
  cases b <;>
    simp [coerceCell, PyValue.isInstInt, PyValue.isInstBool, PyValue.toFloat]

/-- C10: calling `load_column_values` with an empty `cols` mapping raises
`UnboundLocalError` (a `NameError` subclass) at the
`if validation_errors:` test — the name is only ever assigned inside the
per-column loop — instead of returning as a no-op; nothing is written. -/
theorem load_empty_cols_unbound_local (metaId nowTs nextValId : Nat)
    (geos : List (String × Geography)) (df : DataFrame)
    (db : List ColumnValue) :
    loadColumnValues metaId nowTs nextValId [] geos df db =
      .error (.unboundLocal "validation_errors") := rfl

/-- C2 (code bug): `validation_errors = []` sits inside the per-column
loop, so violations recorded for any column other than the last are
discarded.  Here column "a" holds a string cell that fails the integer
check, the last column "b" is clean: the call raises nothing and inserts
every row of the batch, including the mistyped one
(`PyValue.str "bad"`). -/
theorem load_swallows_prior_column_violation :
    loadColumnValues 0 5 100 c2Cols c2Geos c2Df [] = .ok c2Res := by rfl

/-- C1 counterexample: with one already-closed historical row and one
current row on the pair (10, 20), the bulk update's `WHERE` clause —
`(col_id, geo_id) IN stale_pairs` with no `valid_to IS NULL` condition —
also rewrites the historical row's `valid_to` from 5 to 9, so the claim
that every already-closed row for the pair is left unchanged is false. -/
theorem closeout_overwrites_closed_row :
    loadColumnValues 0 9 100 c1Cols c1Geos c1Df c1Db = .ok c1Res ∧
      (⟨1, 10, 20, 0, 1, some 5, PyValue.int 3⟩ : ColumnValue) ∈ c1Db ∧
      (⟨1, 10, 20, 0, 1, some 5, PyValue.int 3⟩ : ColumnValue) ∉ c1Res.db ∧
      (⟨1, 10, 20, 0, 1, some 9, PyValue.int 3⟩ : ColumnValue) ∈ c1Res.db :=
  ⟨by rfl, by decide, by decide, by decide⟩

/-- C1 amended: the bulk update re-derives its targets by (column,
geography) pair rather than by row identity: it sets `valid_to = now` on
*every* session row whose pair occurs among the detected stale pairs —
including already-closed historical rows for those pairs — and leaves
every row whose pair is not among them unchanged. -/
theorem load_closeout_by_pair
    (metaId nowTs nextValId : Nat) (cols : List (String × DataColumn))
    (geos : List (String × Geography)) (df : DataFrame) (db : List ColumnValue)
    (r : LoadResult)
    (hok : loadColumnValues metaId nowTs nextValId cols geos df db = .ok r) :
    r.db = (db.map fun cv =>
        if (cv.colId, cv.geoId) ∈ r.staleValues then
          { cv with validTo := some nowTs }
        else cv) ++ r.inserted ∧
      (∀ cv ∈ db, (cv.colId, cv.geoId) ∉ r.staleValues → cv ∈ r.db) ∧
      (∀ cv ∈ db, (cv.colId, cv.geoId) ∈ r.staleValues →
        ({ cv with validTo := some nowTs } : ColumnValue) ∈ r.db) := by
  obtain ⟨rows, hbc, hr⟩ := loadColumnValues_ok_inv hok
  have hsv := loadPhase2_staleValues nowTs nextValId
    (cols.map fun col => col.2.colId) (geos.map fun kg => kg.2.geoId) rows db
  have hdb := loadPhase2_db nowTs nextValId
    (cols.map fun col => col.2.colId) (geos.map fun kg => kg.2.geoId) rows db
  have hins := loadPhase2_inserted nowTs nextValId
    (cols.map fun col => col.2.colId) (geos.map fun kg => kg.2.geoId) rows db
  rw [← hr] at hsv hdb hins
  have hmain : r.db = (db.map fun cv =>
      if (cv.colId, cv.geoId) ∈ r.staleValues then
        { cv with validTo := some nowTs }
      else cv) ++ r.inserted := by
    rw [hdb, hins, hsv]
    rfl
  refine ⟨hmain, ?_, ?_⟩
  · intro cv hcv hnm
    rw [hmain]
    refine List.mem_append_left _ (List.mem_map.mpr ⟨cv, hcv, ?_⟩)
    rw [if_neg hnm]
  · intro cv hcv hm
    rw [hmain]
    refine List.mem_append_left _ (List.mem_map.mpr ⟨cv, hcv, ?_⟩)
    rw [if_pos hm]

/-- C1 amended witness: the amended statement at the concrete run of the
counterexample. -/
theorem load_closeout_by_pair_witness :
    c1Res.db = (c1Db.map fun cv =>
        if (cv.colId, cv.geoId) ∈ c1Res.staleValues then
          { cv with validTo := some 9 }
        else cv) ++ c1Res.inserted ∧
      (∀ cv ∈ c1Db, (cv.colId, cv.geoId) ∉ c1Res.staleValues →
        cv ∈ c1Res.db) ∧
      (∀ cv ∈ c1Db, (cv.colId, cv.geoId) ∈ c1Res.staleValues →
        ({ cv with validTo := some 9 } : ColumnValue) ∈ c1Res.db) :=
  load_closeout_by_pair 0 9 100 c1Cols c1Geos c1Df c1Db c1Res (by rfl)

/-- C8: when no (column, geography) pair of the batch has an existing
current value, the stale detection returns empty, no update statement is
issued (zero rows updated), the prior rows are left untouched, and exactly
`len(rows)` insertions are performed — one per (column, dataframe index
entry) cell. -/
theorem load_first_write_fast_path
    (metaId nowTs nextValId : Nat) (cols : List (String × DataColumn))
    (geos : List (String × Geography)) (df : DataFrame) (db : List ColumnValue)
    (r : LoadResult)
    (hnocur : ∀ cv ∈ db, cv.validTo = none →
      cv.colId ∉ cols.map (fun col => col.2.colId) ∨
        cv.geoId ∉ geos.map (fun kg => kg.2.geoId))
    (hok : loadColumnValues metaId nowTs nextValId cols geos df db = .ok r) :
    r.staleValues = [] ∧ r.updateIssued = false ∧ r.updatedRows = 0 ∧
      r.db = db ++ r.inserted ∧
      r.inserted.length = cols.length * df.index.length := by
  obtain ⟨rows, hbc, hr⟩ := loadColumnValues_ok_inv hok
  have hstale : staleQuery (cols.map fun col => col.2.colId)
      (geos.map fun kg => kg.2.geoId) db = [] := by
    rw [List.eq_nil_iff_forall_not_mem]
    rintro ⟨c, g⟩ hm
    rw [staleQuery_mem] at hm
    obtain ⟨hc, hg, cv, hdb, hcol, hgeo, hvt⟩ := hm
    rcases hnocur cv hdb hvt with h | h
    · exact h (hcol ▸ hc)
    · exact h (hgeo ▸ hg)
  have hlen : rows.length = cols.length * df.index.length := by
    have h1 : rows.length =
        (rows.map fun row => (row.colId, row.geoId)).length :=
      (List.length_map _ _).symm
    rw [h1, buildCols_pairs hbc, List.length_flatten, List.map_map]
    have h2 : (cols.map fun col =>
        (df.index.map fun g => (col.2.colId, (geoAt geos g).geoId)).length) =
        cols.map fun _ => df.index.length := by
      refine List.map_congr_left ?_
      intro col _
      exact List.length_map _ _
    calc (List.map (List.length ∘ fun col =>
            df.index.map fun g => (col.2.colId, (geoAt geos g).geoId)) cols).sum
        = (cols.map fun _ => df.index.length).sum := by rw [← h2]; rfl
      _ = cols.length * df.index.length := sum_map_const_nat cols _
  subst hr
  simp only [loadPhase2]
  rw [if_pos hstale]
  exact ⟨hstale, rfl, rfl, rfl, by rw [insertRows_length]; exact hlen⟩

/-- C8 witness: the fast path at a concrete run whose prior state holds
one unrelated current row. -/
theorem load_first_write_fast_path_witness :
    c8Res.staleValues = [] ∧ c8Res.updateIssued = false ∧
      c8Res.updatedRows = 0 ∧ c8Res.db = c8Db ++ c8Res.inserted ∧
      c8Res.inserted.length = c8Cols.length * c8Df.index.length :=
  load_first_write_fast_path 0 5 100 c8Cols c8Geos c8Df c8Db c8Res
    (by decide) (by rfl)

/-- C3: starting from any state satisfying the at-most-one-current-value
invariant, a successful `load_column_values` call over a dataframe indexed
exactly by the geography keys (with distinct keys, geography ids, and
column ids) preserves the invariant: afterwards every batch
(column, geography) pair has exactly one current row, which is one of the
newly inserted rows, and the rows of every pair outside the batch are
exactly as before. -/
theorem load_preserves_at_most_one_current
    (metaId nowTs nextValId : Nat) (cols : List (String × DataColumn))
    (geos : List (String × Geography)) (df : DataFrame) (db : List ColumnValue)
    (r : LoadResult)
    (hinv : AtMostOneCurrent db)
    (hidx : df.index = geos.map Prod.fst)
    (hkeys : (geos.map Prod.fst).Nodup)
    (hgeo : (geos.map fun kg => kg.2.geoId).Nodup)
    (hcol : (cols.map fun col => col.2.colId).Nodup)
    (hok : loadColumnValues metaId nowTs nextValId cols geos df db = .ok r) :
    AtMostOneCurrent r.db ∧
      (∀ c ∈ cols.map (fun col => col.2.colId),
        ∀ g ∈ geos.map (fun kg => kg.2.geoId),
          ∃ cv ∈ r.inserted, currentRows r.db c g = [cv]) ∧
      (∀ c g,
        (c ∉ cols.map (fun col => col.2.colId) ∨
          g ∉ geos.map (fun kg => kg.2.geoId)) →
        pairRows r.db c g = pairRows db c g) := by
  obtain ⟨rows, hbc, hr⟩ := loadColumnValues_ok_inv hok
  set colIds := cols.map (fun col => col.2.colId) with hcolIds
  set geoIds := geos.map (fun kg => kg.2.geoId) with hgeoIds
  set S := staleQuery colIds geoIds db with hS
  have hdbr : r.db =
      closeOutStale nowTs S db ++ insertRows nextValId rows := by
    rw [hr]
    exact loadPhase2_db nowTs nextValId colIds geoIds rows db
  have hinsr : r.inserted = insertRows nextValId rows := by
    rw [hr]
    exact loadPhase2_inserted nowTs nextValId colIds geoIds rows db
  have hpairsNew : (insertRows nextValId rows).map
      (fun cv => (cv.colId, cv.geoId)) =
      (colIds.map fun cid => geoIds.map fun gid => (cid, gid)).flatten := by
    rw [insertRows_map_pair, buildCols_pairs hbc, hidx, hcolIds, List.map_map]
    congr 1
    refine List.map_congr_left ?_
    intro col _
    exact mapIdx_pairs geos col.2.colId hkeys
  have hlenNew : ∀ c g,
      (currentRows (insertRows nextValId rows) c g).length =
        (geoIds.countP fun x => x == g) * (colIds.countP fun x => x == c) := by
    intro c g
    rw [currentRows_insertRows]
    unfold pairRows
    rw [← List.countP_eq_length_filter]
    have hcp : List.countP (fun cv => cv.colId == c && cv.geoId == g)
        (insertRows nextValId rows) =
        List.countP (fun p => p.1 == c && p.2 == g)
          ((insertRows nextValId rows).map fun cv => (cv.colId, cv.geoId)) := by
      rw [List.countP_map]
      rfl
    rw [hcp, hpairsNew, countP_pair_flatten]
  have hnewEmpty : ∀ c g,
      (geoIds.countP fun x => x == g) * (colIds.countP fun x => x == c) = 0 →
      currentRows (insertRows nextValId rows) c g = [] := by
    intro c g h0
    refine List.length_eq_zero.mp ?_
    rw [hlenNew c g, h0]
  have hbatch : ∀ c ∈ colIds, ∀ g ∈ geoIds,
      ∃ cv ∈ insertRows nextValId rows, currentRows r.db c g = [cv] := by
    intro c hc g hg
    have hclose : currentRows (closeOutStale nowTs S db) c g = [] := by
      by_cases hm : (c, g) ∈ S
      · exact currentRows_closeOutStale_of_mem nowTs S db hm
      · rw [currentRows_closeOutStale_frame nowTs S db hm]
        exact currentRows_eq_nil_of_not_stale hc hg hm
    have h1 : (currentRows (insertRows nextValId rows) c g).length = 1 := by
      rw [hlenNew c g, countP_beq_of_nodup hgeo hg, countP_beq_of_nodup hcol hc]
    obtain ⟨cv, hcveq⟩ := List.length_eq_one.mp h1
    refine ⟨cv, ?_, ?_⟩
    · have hself : cv ∈ currentRows (insertRows nextValId rows) c g := by
        rw [hcveq]
        exact List.mem_singleton_self cv
      exact (currentRows_mem.mp hself).1
    · rw [hdbr, currentRows_append, hclose, hcveq, List.nil_append]
  refine ⟨?_, ?_, ?_⟩
  · intro c g
    by_cases hc : c ∈ colIds
    · by_cases hg : g ∈ geoIds
      · obtain ⟨cv, _, heq⟩ := hbatch c hc g hg
        rw [heq]
        exact Nat.le_refl 1
      · have hnotS : (c, g) ∉ S := fun hm => hg (staleQuery_mem.mp hm).2.1
        rw [hdbr, currentRows_append,
          currentRows_closeOutStale_frame nowTs S db hnotS,
          hnewEmpty c g (by rw [countP_beq_of_not_mem hg, Nat.zero_mul]),
          List.append_nil]
        exact hinv c g
    · have hnotS : (c, g) ∉ S := fun hm => hc (staleQuery_mem.mp hm).1
      rw [hdbr, currentRows_append,
        currentRows_closeOutStale_frame nowTs S db hnotS,
        hnewEmpty c g (by rw [countP_beq_of_not_mem hc, Nat.mul_zero]),
        List.append_nil]
      exact hinv c g
  · intro c hc g hg
    obtain ⟨cv, hcvmem, heq⟩ := hbatch c hc g hg
    exact ⟨cv, by rw [hinsr]; exact hcvmem, heq⟩
  · intro c g hor
    have hnotS : (c, g) ∉ S := by
      intro hm
      rcases hor with h | h
      · exact h (staleQuery_mem.mp hm).1
      · exact h (staleQuery_mem.mp hm).2.1
    have hnew0 : pairRows (insertRows nextValId rows) c g = [] := by
      rw [← currentRows_insertRows]
      rcases hor with h | h
      · exact hnewEmpty c g (by rw [countP_beq_of_not_mem h, Nat.mul_zero])
      · exact hnewEmpty c g (by rw [countP_beq_of_not_mem h, Nat.zero_mul])
    rw [hdbr, pairRows_append,
      pairRows_closeOutStale_frame nowTs S db hnotS, hnew0, List.append_nil]

/-- C3 witness: the invariant-preservation statement at a concrete
first-time write into an empty store. -/
theorem load_preserves_at_most_one_current_witness :
    AtMostOneCurrent c3Res.db ∧
      (∀ c ∈ c3Cols.map (fun col => col.2.colId),
        ∀ g ∈ c3Geos.map (fun kg => kg.2.geoId),
          ∃ cv ∈ c3Res.inserted, currentRows c3Res.db c g = [cv]) ∧
      (∀ c g,
        (c ∉ c3Cols.map (fun col => col.2.colId) ∨
          g ∉ c3Geos.map (fun kg => kg.2.geoId)) →
        pairRows c3Res.db c g = pairRows [] c g) :=
  load_preserves_at_most_one_current 0 5 100 c3Cols c3Geos c3Df [] c3Res
    (fun c g => by simp [currentRows]) (by rfl) (by decide) (by decide)
    (by decide) (by rfl)
